import Mathlib

/-!
Shallow embedding of `molter` (zevaryx/molter), an argument-parsing and
dispatch layer for text chat commands, from `src/molter/command.py`.
Python values are modelled by the inductive `Value`, Python exceptions by
`PyErr` (molter's `BadArgument` versus any other exception), and runtime
type annotations by `PyTy`.  Conversion callables are modelled
semantically as `String → Except PyErr Value` (the `ctx` argument of a
converter is opaque to every code path embedded here and is dropped).
-/

set_option autoImplicit false

namespace Molter

/-- Python runtime values, as far as molter's binding algorithm observes
them: ints, strings, bools, `None`, lists and tuples. -/
inductive Value where
  | vInt (n : Int)
  | vStr (s : String)
  | vBool (b : Bool)
  | vNone
  | vList (l : List Value)
  | vTuple (l : List Value)

/-- Python truthiness (`if x:`) for the values above; `command.py` uses it
on `param.default` (`_greedy_convert`, `call_callback`). -/
def Value.truthy : Value → Bool
  | .vInt n => n ≠ 0
  | .vStr s => s ≠ ""
  | .vBool b => b
  | .vNone => false
  | .vList l => ¬ l.isEmpty
  | .vTuple l => ¬ l.isEmpty

/-- A parameter default is either the `MISSING` sentinel (`none`: dis_snek's
falsy sentinel, used by `command.py` for "no default") or a value. -/
def defaultTruthy : Option Value → Bool
  | none => false
  | some v => v.truthy

/-- Exceptions the embedded code distinguishes: molter's user-facing
`BadArgument` versus every other Python exception (`str(e)` kept). -/
inductive PyErr where
  | badArgument (msg : String)
  | otherExc (msg : String)
deriving DecidableEq, Repr

/-- A conversion callable: `(ctx, token) → value or raise`. -/
def ConvFun := String → Except PyErr Value

/-- Non-container runtime type annotations: a named class (`int`, `str`,
`NoneType`, dis_snek models, ...), `inspect._empty` (no annotation), a
`Converter` instance/class identified by name, a plain function identified
by name with its parameter count, or a `Literal[...]` of string values. -/
inductive PyAtom where
  | base (s : String)
  | emptyTy
  | convRef (s : String)
  | funcRef (s : String) (arity : Nat)
  | lit (vals : List String)
deriving DecidableEq, Repr

/-- Type annotations as `command.py` inspects them with `typing.get_origin`
and `typing.get_args`: an atom, `Annotated[...]` over atoms, a
`Union`/`Optional` over atoms, or molter's `Greedy[...]` wrapper. -/
inductive PyTy where
  | atom (a : PyAtom)
  | annotated (args : List PyAtom)
  | union (args : List PyAtom)
  | greedy (arg : PyTy)
deriving DecidableEq, Repr

/-- The `NoneType` annotation. -/
def noneTy : PyTy := .atom (.base "NoneType")

/-- `typing.get_args`, for the places `command.py` calls it on an arbitrary
type (`register_converter`, `_convert`).  `get_args` of a plain class is
`()`; of `Literal[...]` it is the literal values (never equal to a type, so
modelled as `[]` which yields the same lookup behaviour). -/
def getArgsT : PyTy → List PyTy
  | .atom _ => []
  | .annotated args => args.map .atom
  | .union args => args.map .atom
  | .greedy t => [t]

/-- String name of a type, after `_get_name` (`command.py:99`), used only
inside error messages. -/
def pyTyName : PyTy → String
  | .atom (.base s) => s
  | .atom .emptyTy => "empty"
  | .atom (.convRef s) => s
  | .atom (.funcRef s _) => s
  | .atom (.lit _) => "Literal"
  | .annotated _ => "Annotated"
  | .union _ => "Union"
  | .greedy _ => "Greedy"

/-!  ## Tokenizer

`command.py:35-38` builds `ARGS_PARSE` as the regex
`([OPENS].*[CLOSES]|[^\t\f\v ]+)` where `OPENS`/`CLOSES` come from the host
framework's `_quotes` table, and `call_callback` does
`ARGS_PARSE.findall(...)` followed by `_arg_fix` on every token.
-/

/-- Modelled from the spec: the quote-pair table `_quotes` imported from the
host framework (`dis_snek.client.utils.input_utils`, outside this
repository).  §4.1 specifies "a fixed set of paired quote delimiters (e.g.
`"…"`, curly/smart variants)"; a representative table is used. -/
def pyQuotes : List (Char × Char) := [('"', '"'), ('“', '”'), ('„', '“')]

/-- The opening-quote character class (`_quotes.keys()`). -/
def openQuotes : List Char := pyQuotes.map (·.1)

/-- The closing-quote character class (`_quotes.values()`). -/
def closeQuotes : List Char := pyQuotes.map (·.2)

/-- The separator class of the regex branch `[^\t\f\v ]+`: tab, form feed,
vertical tab and space.  Newlines are deliberately absent (the framework
quirk `command.py:31-34` works around). -/
def isSepChar (c : Char) : Bool := c = ' ' ∨ c = '\t' ∨ c = '\x0c' ∨ c = '\x0b'

/-- Index of the last closing-quote character before the first newline, if
any: the greedy `.*[CLOSES]` part of `ARGS_PARSE` (`.` does not match a
newline, and `.*` is greedy so it backtracks to the last closer). -/
def lastCloseIdx : List Char → Option Nat
  | [] => none
  | c :: rest =>
    if c = '\n' then none
    else match lastCloseIdx rest with
      | some i => some (i + 1)
      | none => if c ∈ closeQuotes then some 0 else none

/-- The scanning loop of `ARGS_PARSE.findall`, structurally recursive on a
fuel that `scanTokens` instantiates with the input length (an upper bound
on the number of scanning steps, since every step discards at least one
character). -/
def scanTokensF : Nat → List Char → List (List Char)
  | 0, _ => []
  | _ + 1, [] => []
  | fuel + 1, c :: rest =>
    if isSepChar c then scanTokensF fuel rest
    else if c ∈ openQuotes then
      match lastCloseIdx rest with
      | some i => (c :: rest.take (i + 1)) :: scanTokensF fuel (rest.drop (i + 1))
      | none =>
        (c :: rest.takeWhile (fun d => ¬ isSepChar d))
          :: scanTokensF fuel (rest.dropWhile (fun d => ¬ isSepChar d))
    else
      (c :: rest.takeWhile (fun d => ¬ isSepChar d))
        :: scanTokensF fuel (rest.dropWhile (fun d => ¬ isSepChar d))

/-- `ARGS_PARSE.findall`: left-to-right non-overlapping matching of
`([OPENS].*[CLOSES]|[^\t\f\v ]+)`, alternation tried in order. -/
def scanTokens (l : List Char) : List (List Char) :=
  scanTokensF l.length l

/-- `_arg_fix` (`command.py:272-273`): strip the first and last character
(`arg[1:-1]`) when the first character is an opening quote.  The empty
token never occurs in the pipeline (see `scanTokens`); `arg[0]` on it would
raise in Python, here it is returned unchanged. -/
def argFix (tok : List Char) : List Char :=
  match tok with
  | [] => []
  | c :: _ => if c ∈ openQuotes then (tok.drop 1).dropLast else tok

/-- The full tokenizing pipeline of `call_callback` (`command.py:653-657`):
`ARGS_PARSE.findall` then `_arg_fix` on each token. -/
def tokenize (s : String) : List String :=
  (scanTokens s.data).map (fun t => String.mk (argFix t))

/-!  ## Token cursor: `ArgsIterator` (`command.py:59-96`) -/

/-- `ArgsIterator`: holds the token tuple, a current index (an `Int`, since
`back` can drive it negative) and the cached `length` that `__iter__`
sets. -/
structure ArgsIterator where
  args : List String
  index : Int := 0
  length : Nat := 0
deriving DecidableEq, Repr

/-- `__iter__`: caches `len(self.args)` in `self.length`. -/
def ArgsIterator.iterInit (it : ArgsIterator) : ArgsIterator :=
  { it with length := it.args.length }

/-- Python sequence indexing `xs[i]` with negative-index wrapping;
`none` is an `IndexError`. -/
def pyIndex (l : List String) (i : Int) : Option String :=
  let j : Int := if i < 0 then (l.length : Int) + i else i
  if h : 0 ≤ j ∧ j < (l.length : Int) then l.get ⟨j.toNat, by omega⟩ else none

/-- Python slicing `xs[i:]` (clamped at 0 for negative starts). -/
def pySliceFrom (l : List String) (i : Int) : List String :=
  if i < 0 then l.drop (((l.length : Int) + i).toNat) else l.drop i.toNat

/-- Outcome of `__next__`: `StopIteration`, an item (with the advanced
iterator), or an `IndexError` (reachable only when `index < -len`). -/
inductive NextRes where
  | stop
  | item (s : String) (it : ArgsIterator)
  | ixErr
deriving DecidableEq, Repr

/-- `__next__` (`command.py:75-81`). -/
def ArgsIterator.next (it : ArgsIterator) : NextRes :=
  if (it.length : Int) ≤ it.index then .stop
  else match pyIndex it.args it.index with
    | some s => .item s { it with index := it.index + 1 }
    | none => .ixErr

/-- `consume_rest` (`command.py:83-86`): returns `args[index-1:]` and
exhausts the cursor. -/
def ArgsIterator.consumeRest (it : ArgsIterator) : List String × ArgsIterator :=
  (pySliceFrom it.args (it.index - 1), { it with index := (it.length : Int) })

/-- `back` (`command.py:88-89`). -/
def ArgsIterator.back (it : ArgsIterator) (count : Int := 1) : ArgsIterator :=
  { it with index := it.index - count }

/-- `finished` (`command.py:94-96`). -/
def ArgsIterator.finished (it : ArgsIterator) : Bool :=
  (it.length : Int) ≤ it.index

/-!  ## Parameter descriptors and converter resolution -/

/-- A converter slot of `CommandParameter.converters`: a plain callable
(bound `convert` method or wrapper lambda from `_get_converter`), the
`None` that the unraised-`ValueError` path of `_get_converter` returns, or
a raw `Converter` class object as stored by `register_converter`
(`command.py:829/838`). -/
inductive ConvSlot where
  | fn (f : ConvFun)
  | pyNone
  | rawClass (s : String)

/-- Environment resolving the behaviour of named Python callables the
embedded code invokes but whose bodies live outside `command.py`:
`convArity` is `len(inspect.signature(C.convert).parameters)` for a
converter reference; `convFn` the semantics of the (bound) `convert`;
`funcFn` the semantics of a plain function annotation applied to the
token; `classCall` the semantics of calling a converter class object
itself with `(ctx, token)`; `ctorFn` the fallback `anno(token)`
constructor call of `command.py:197`. -/
structure PyEnv where
  convArity : String → Nat
  convFn : String → ConvFun
  funcFn : String → ConvFun
  classCall : String → ConvFun
  ctorFn : String → ConvFun

/-- Invoking one converter slot on a token (`converter(ctx, arg)` inside
`_convert`): calling `None` raises a `TypeError`; calling a raw class runs
the class's own call semantics. -/
def callSlot (env : PyEnv) (c : ConvSlot) (arg : String) : Except PyErr Value :=
  match c with
  | .fn f => f arg
  | .pyNone => .error (.otherExc "TypeError: 'NoneType' object is not callable")
  | .rawClass s => env.classCall s arg

/-- `CommandParameter` (`command.py:41-56`).  `default = none` is the
`MISSING` sentinel.  The source field `variable` is a Lean keyword and is
named `variadic` here. -/
structure CommandParameter where
  name : String := ""
  default : Option Value := none
  type : PyTy := .atom .emptyTy
  converters : List ConvSlot := []
  greedy : Bool := false
  union : Bool := false
  variadic : Bool := false
  consume_rest : Bool := false

/-- `CommandParameter.optional` (`command.py:54-56`):
`default != MISSING`. -/
def CommandParameter.optional (p : CommandParameter) : Bool :=
  p.default.isSome

/-- `_convert_to_bool` (`command.py:106-113`). -/
def convertToBool (argument : String) : Except PyErr Value :=
  let lowered := argument.toLower
  if lowered ∈ ["yes", "y", "true", "t", "1", "enable", "on"] then .ok (.vBool true)
  else if lowered ∈ ["no", "n", "false", "f", "0", "disable", "off"] then .ok (.vBool false)
  else .error (.badArgument (argument ++ " is not a recognised boolean option."))

/-- Modelled from the spec: `LiteralConverter` (`molter/converters.py`,
not under `src/`): per §4.4(d) it "succeeds only when the token
string-matches one of the literal values (case-sensitive exact match
against the literal's string form) and fails otherwise". -/
def literalConvert (vals : List String) : ConvFun := fun arg =>
  if arg ∈ vals then .ok (.vStr arg) else
    .error (.badArgument (arg ++ " is not a valid option."))

/-- `_get_from_anno_type` (`command.py:131-150`): the arguments of an
`Annotated[...]` minus the first; more than one extra argument raises a
`ValueError`, zero extra arguments would raise an `IndexError` on
`args[0]` (both modelled as `.error`). -/
def getFromAnnoType (args : List PyAtom) (name : String) : Except String PyAtom :=
  match args.drop 1 with
  | [a] => .ok a
  | [] => .error "IndexError: tuple index out of range"
  | _ => .error ("Annotated for " ++ name ++ " has more than 2 arguments, which is unsupported.")

/-- `_get_converter_function` (`command.py:153-167`).  `num_params == 3`
means an unbound `convert` with a `self` slot: the class is instantiated
and the count drops to 2.  The source then builds
`ValueError(... converters must have exactly 2 arguments.)` for any other
count but never raises it (the `raise` keyword is missing on line 165), so
the function always returns the `convert` callable. -/
def getConverterFunction (env : PyEnv) (convName : String) : ConvFun :=
  let numParams := env.convArity convName
  let numParams := if numParams == 3 then numParams - 1 else numParams
  let _unraised := numParams ≠ 2
  env.convFn convName

/-- The registered `type → Converter` mapping (`type_to_converter`),
an insertion-ordered dict keyed by type. -/
abbrev TypeMap := List (PyTy × String)

/-- Python `dict.get` on a `TypeMap`. -/
def TypeMap.get (tm : TypeMap) (k : PyTy) : Option String :=
  match tm.find? (fun kv => kv.1 = k) with
  | some kv => some kv.2
  | none => none

/-- Python `dict[k] = v` on a `TypeMap`. -/
def TypeMap.set (tm : TypeMap) (k : PyTy) (v : String) : TypeMap :=
  if (tm.find? (fun kv => kv.1 = k)).isSome then
    tm.map (fun kv => if kv.1 = k then (k, v) else kv)
  else tm ++ [(k, v)]

/-- `_get_converter` (`command.py:170-197`).  `.error` is a raised
`ValueError`; `.ok none` is the implicit `return None` that the
`num_params > 2` function branch falls through to (its `ValueError` on
line 191 is constructed but never raised). -/
def getConverter (env : PyEnv) (anno0 : PyTy) (name : String) (tm : TypeMap) :
    Except String (Option ConvFun) := do
  let anno ← match anno0 with
    | .annotated args => (getFromAnnoType args name).map .atom
    | _ => pure anno0
  match anno with
  | .atom (.convRef s) => pure (some (getConverterFunction env s))
  | _ =>
    match tm.get anno with
    | some cname => pure (some (getConverterFunction env cname))
    | none =>
      match anno with
      | .atom (.lit vals) => pure (some (literalConvert vals))
      | .atom (.funcRef s arity) =>
        match arity with
        | 2 => pure (some (env.funcFn s))
        | 1 => pure (some (env.funcFn s))
        | 0 => pure (some (fun _ => env.funcFn s ""))
        | _ => pure none
      | _ =>
        if anno = .atom (.base "bool") then pure (some (fun arg => convertToBool arg))
        else if anno = .atom .emptyTy then pure (some (fun arg => .ok (.vStr arg)))
        else pure (some (fun arg => env.ctorFn (pyTyName anno) arg))

/-- Kind of a declared handler parameter, as `inspect.Parameter.kind`
exposes it to `_get_params`. -/
inductive ParamKind where
  | posOrKw
  | keywordOnly
  | varPositional
deriving DecidableEq, Repr

/-- One entry of the handler's declared (already `self`/`ctx`-stripped)
signature, as `inspect.signature` hands it to `_get_params`:
`default = none` is `inspect.Parameter.empty`. -/
structure SigParam where
  name : String
  default : Option Value
  anno : PyTy
  kind : ParamKind

/-- `_greedy_parse` (`command.py:200-215`). -/
def greedyParse (greedyAnno : PyTy) (kind : ParamKind) (pname : String) :
    Except String PyTy := do
  if kind = .keywordOnly ∨ kind = .varPositional then
    throw "Greedy[...] cannot be a variable or keyword-only argument."
  else
    let arg ← match greedyAnno with
      | .greedy t => pure t
      | _ => throw "IndexError: tuple index out of range"
    let arg ← match arg with
      | .annotated args => (getFromAnnoType args pname).map .atom
      | _ => pure arg
    if arg = noneTy ∨ arg = .atom (.base "str") then
      throw ("Greedy[" ++ pyTyName arg ++ "] is invalid.")
    else
      match arg with
      | .union args =>
        if (PyAtom.base "NoneType") ∈ args then
          throw ("Greedy[" ++ pyTyName arg ++ "] is invalid.")
        else pure arg
      | _ => pure arg

/-- Wrap the result of `_get_converter` as the slot `_get_params`
appends. -/
def slotOf : Option ConvFun → ConvSlot
  | some f => .fn f
  | none => .pyNone

/-- The union member loop of `_get_params` (`command.py:241-248`): for each
member that is not `NoneType` resolve and append a converter; a `NoneType`
member sets `default = None` when the parameter is not yet optional. -/
def unionLoop (env : PyEnv) (tm : TypeMap) (name : String) :
    List PyAtom → CommandParameter → Except String CommandParameter
  | [], cp => .ok cp
  | a :: rest, cp =>
    if (PyAtom.base "NoneType") ≠ a then
      match getConverter env (.atom a) name tm with
      | .error e => .error e
      | .ok c =>
        unionLoop env tm name rest { cp with converters := cp.converters ++ [slotOf c] }
    else if ¬ cp.optional then
      unionLoop env tm name rest { cp with default := some .vNone }
    else
      unionLoop env tm name rest cp

/-- `_get_params` (`command.py:218-269`), taking the structured signature
directly (the spec's §9 registration-time form of the reflection step). -/
def getParams (env : PyEnv) (tm : TypeMap) :
    List SigParam → Except String (List CommandParameter)
  | [] => .ok []
  | sp :: rest => do
    let cp : CommandParameter :=
      { name := sp.name, default := sp.default, type := sp.anno }
    let (anno, cp) ←
      match sp.anno with
      | .greedy t =>
        (greedyParse (.greedy t) sp.kind sp.name).map (fun a => (a, { cp with greedy := true }))
      | _ => pure (sp.anno, cp)
    let cp ←
      match anno with
      | .union args => unionLoop env tm sp.name args { cp with union := true }
      | _ =>
        (getConverter env anno sp.name tm).map
          (fun c => { cp with converters := cp.converters ++ [slotOf c] })
    match sp.kind with
    | .keywordOnly => pure [{ cp with consume_rest := true }]
    | .varPositional =>
      if cp.optional then
        throw "Variable arguments cannot have default values or be Optional."
      else pure [{ cp with variadic := true }]
    | .posOrKw => (getParams env tm rest).map (cp :: ·)

/-!  ## Argument binder -/

/-- The converter loop of `_convert` (`command.py:286-294`): try each
converter in order; the first success wins; on an exception, a
non-union non-optional parameter re-raises (`BadArgument` as is, anything
else wrapped into `BadArgument(str(e))`), otherwise the next converter is
tried.  `ok none` is `converted == MISSING` after the loop. -/
def tryConvSlots (env : PyEnv) (p : CommandParameter) (arg : String) :
    List ConvSlot → Except PyErr (Option Value)
  | [] => .ok none
  | c :: rest =>
    match callSlot env c arg with
    | .ok v => .ok (some v)
    | .error e =>
      if ¬ p.union ∧ ¬ p.optional then
        match e with
        | .badArgument m => .error (.badArgument m)
        | .otherExc m => .error (.badArgument m)
      else tryConvSlots env p arg rest

/-- The "could not convert" message of `_convert` (`command.py:302-305`),
built from `typing.get_args(param.type)`. -/
def couldNotConvertMsg (p : CommandParameter) (arg : String) : String :=
  let unionNames := (getArgsT p.type).map pyTyName
  let unionTypesStr :=
    String.intercalate ", " unionNames.dropLast ++ ", or " ++ (unionNames.getLastD "")
  "Could not convert \"" ++ arg ++ "\" into " ++ unionTypesStr ++ "."

/-- `_convert` (`command.py:284-307`): returns the converted value and the
`used_default` flag, or raises `BadArgument`. -/
def pyConvert (env : PyEnv) (p : CommandParameter) (arg : String) :
    Except PyErr (Value × Bool) :=
  match tryConvSlots env p arg p.converters with
  | .error e => .error e
  | .ok (some v) => .ok (v, false)
  | .ok none =>
    match p.default with
    | some d => .ok (d, true)
    | none => .error (.badArgument (couldNotConvertMsg p arg))

/-- The `for arg in args` loop of `_greedy_convert` (`command.py:317-327`):
accumulate conversions; a conversion that raises `BadArgument` or falls
back to the default breaks the run with `broke_off = True` (the failing
token stays consumed).  Accumulated values are returned in order. -/
def greedyLoopF (env : PyEnv) (p : CommandParameter) :
    Nat → ArgsIterator → List Value → Except PyErr (List Value × Bool × ArgsIterator)
  | 0, it, acc => .ok (acc.reverse, false, it)
  | fuel + 1, it, acc =>
    match it.next with
    | .stop => .ok (acc.reverse, false, it)
    | .ixErr => .error (.otherExc "IndexError: tuple index out of range")
    | .item arg it2 =>
      match pyConvert env p arg with
      | .ok (v, usedDefault) =>
        if usedDefault then .ok (acc.reverse, true, it2)
        else greedyLoopF env p fuel it2 (v :: acc)
      | .error e =>
        match e with
        | .badArgument _ => .ok (acc.reverse, true, it2)
        | .otherExc m => .error (.otherExc m)

/-- The `for arg in args` loop of `_greedy_convert`, entered with a fuel
equal to the number of tokens left (`__next__` succeeds exactly that many
times, so the `0` case coincides with `StopIteration`). -/
def greedyLoop (env : PyEnv) (p : CommandParameter) (it : ArgsIterator)
    (acc : List Value) : Except PyErr (List Value × Bool × ArgsIterator) :=
  greedyLoopF env p ((it.length : Int) - it.index).toNat it acc

/-- `_greedy_convert` (`command.py:310-335`): step the cursor back one,
run the greedy loop; zero accumulated tokens fall back to a truthy default
(bound unchanged, not wrapped in a list) or raise `BadArgument`; otherwise
the list of converted values is returned, with the `broke_off` flag. -/
def greedyConvert (env : PyEnv) (p : CommandParameter) (it : ArgsIterator) :
    Except PyErr (Value × Bool × ArgsIterator) :=
  match greedyLoop env p (it.back 1) [] with
  | .error e => .error e
  | .ok (vals, brokeOff, it1) =>
    if vals.isEmpty then
      match p.default with
      | some d =>
        if d.truthy then .ok (d, brokeOff, it1)
        else .error (.badArgument ("Failed to find any arguments for " ++ pyTyName p.type ++ "."))
      | none =>
        .error (.badArgument ("Failed to find any arguments for " ++ pyTyName p.type ++ "."))
    else .ok (.vList vals, brokeOff, it1)

/-- The list comprehension of the `param.variable` branch
(`command.py:668-670`): convert every remaining token, keeping only the
converted values (`arg[0]`). -/
def convertAll (env : PyEnv) (p : CommandParameter) :
    List String → Except PyErr (List Value)
  | [] => .ok []
  | a :: rest =>
    match pyConvert env p a with
    | .error e => .error e
    | .ok (v, _) => (convertAll env p rest).map (v :: ·)

/-- State threaded through the binding loops of `call_callback`:
the cursor, `param_index`, `new_args` and `kwargs`. -/
structure BindState where
  it : ArgsIterator
  paramIndex : Nat
  newArgs : List Value
  kwargs : List (String × Value)

/-- Python `kwargs[name] = v`. -/
def kwSet (kw : List (String × Value)) (k : String) (v : Value) :
    List (String × Value) :=
  if (kw.find? (fun p => p.1 = k)).isSome then
    kw.map (fun p => if p.1 = k then (k, v) else p)
  else kw ++ [(k, v)]

/-- The inner `while param_index < len(self.parameters)` loop of
`call_callback` (`command.py:661-696`), processing one outer token
(`argCur`, which the `consume_rest` branch rebinds).  Returns the state at
the `break` or at the loop condition turning false.  Structurally
recursive on a fuel that callers instantiate with `params.length`: every
iteration increments `param_index`, so the fuel reaches `0` only when the
loop condition is already false, and the `0` case coincides with it. -/
def innerWhile (env : PyEnv) (params : List CommandParameter) (argCur : String) :
    Nat → BindState → Except PyErr BindState
  | 0, st => .ok st
  | fuel + 1, st =>
  if h : st.paramIndex < params.length then
    let p := params.get ⟨st.paramIndex, h⟩
    let (argCur, it) :=
      if p.consume_rest then
        let (rest, it2) := st.it.consumeRest
        (String.intercalate " " rest, it2)
      else (argCur, st.it)
    if p.variadic then
      let (toConvert, it3) := it.consumeRest
      match convertAll env p toConvert with
      | .error e => .error e
      | .ok vals =>
        .ok { it := it3, paramIndex := st.paramIndex + 1,
              newArgs := st.newArgs ++ [.vTuple vals], kwargs := st.kwargs }
    else if p.greedy then
      match greedyConvert env p it with
      | .error e => .error e
      | .ok (gval, brokeOff, it1) =>
        let it2 := if brokeOff then it1.back 1 else it1
        let st2 : BindState :=
          { it := it2, paramIndex := st.paramIndex + 1,
            newArgs := st.newArgs ++ [gval], kwargs := st.kwargs }
        if defaultTruthy p.default then innerWhile env params argCur fuel st2
        else .ok st2
    else
      match pyConvert env p argCur with
      | .error e => .error e
      | .ok (v, usedDefault) =>
        let st2 : BindState :=
          { it := it, paramIndex := st.paramIndex + 1,
            newArgs := if ¬ p.consume_rest then st.newArgs ++ [v] else st.newArgs,
            kwargs := if ¬ p.consume_rest then st.kwargs else kwSet st.kwargs p.name v }
        if ¬ usedDefault then .ok st2
        else innerWhile env params argCur fuel st2
  else .ok st

/-- The outer `for arg in args` loop of `call_callback`
(`command.py:660-696`), fuelled; `none` means the fuel ran out (never the
case in any run examined below). -/
def outerLoop (env : PyEnv) (params : List CommandParameter) :
    Nat → BindState → Option (Except PyErr BindState)
  | 0, _ => none
  | fuel + 1, st =>
    match st.it.next with
    | .stop => some (.ok st)
    | .ixErr => some (.error (.otherExc "IndexError: tuple index out of range"))
    | .item arg it1 =>
      match innerWhile env params arg params.length { st with it := it1 } with
      | .error e => some (.error e)
      | .ok st2 => outerLoop env params fuel st2

/-- The default-filling loop of `call_callback` (`command.py:698-707`):
for every remaining descriptor bind its default, stopping at the first
`consume_rest` default; a remaining required descriptor raises. -/
def fillDefaults : List CommandParameter → List Value → List (String × Value) →
    Except PyErr (List Value × List (String × Value))
  | [], na, kw => .ok (na, kw)
  | p :: rest, na, kw =>
    match p.default with
    | none => .error (.badArgument (p.name ++ " is a required argument that is missing."))
    | some d =>
      if ¬ p.consume_rest then fillDefaults rest (na ++ [d]) kw
      else .ok (na, kwSet kw p.name d)

/-- `MolterCommand`, restricted to the fields `call_callback` and
`register_converter` read (`command.py:338-373`). -/
structure MolterCmd where
  name : String
  parameters : List CommandParameter
  ignore_extra : Bool := true
  type_to_converter : TypeMap := []

/-- The epilogue of `call_callback` (`command.py:698-709`): fill or reject
remaining descriptors, else raise "Too many arguments" when
`ignore_extra` is off and the cursor is not finished. -/
def afterLoop (cmd : MolterCmd) (st : BindState) :
    Except PyErr (List Value × List (String × Value)) :=
  if st.paramIndex < cmd.parameters.length then
    fillDefaults (cmd.parameters.drop st.paramIndex) st.newArgs st.kwargs
  else if ¬ cmd.ignore_extra ∧ ¬ st.it.finished then
    .error (.badArgument ("Too many arguments passed to " ++ cmd.name ++ "."))
  else .ok (st.newArgs, st.kwargs)

/-- `call_callback` (`command.py:640-711`): the result is the
`(new_args, kwargs)` pair handed to the handler (a zero-parameter command
skips everything and passes nothing), or the raised `PyErr`; `none` only
when the fuel ran out. -/
def callCallback (env : PyEnv) (cmd : MolterCmd) (content : String) (fuel : Nat) :
    Option (Except PyErr (List Value × List (String × Value))) :=
  if cmd.parameters.length = 0 then some (.ok ([], []))
  else
    let toks := tokenize content
    let it := ArgsIterator.iterInit { args := toks }
    match outerLoop env cmd.parameters fuel
        { it := it, paramIndex := 0, newArgs := [], kwargs := [] } with
    | none => none
    | some (.error e) => some (.error e)
    | some (.ok st) => some (afterLoop cmd st)

/-!  ## Command tree: `add_command`, `get_command` -/

/-- A command node for the tree operations: name, aliases and the
`command_dict` mapping each name-or-alias key to a subcommand node. -/
inductive CmdNode where
  | mk (name : String) (aliases : List String) (children : List (String × CmdNode))

/-- The `command_dict` of a node. -/
def CmdNode.children : CmdNode → List (String × CmdNode)
  | .mk _ _ cs => cs

/-- Python `dict.get` on a `command_dict`. -/
def dictGet (d : List (String × CmdNode)) (k : String) : Option CmdNode :=
  match d.find? (fun kv => kv.1 = k) with
  | some kv => some kv.2
  | none => none

/-- The `for name in names[1:]` walk of `get_command`
(`command.py:550-556`): each missing key (`KeyError`) returns `None`. -/
def walkPath : CmdNode → List String → Option CmdNode
  | cmd, [] => some cmd
  | cmd, n :: rest =>
    match dictGet cmd.children n with
    | none => none
    | some c => walkPath c rest

/-- One step of splitting a character sequence at whitespace. -/
def wsGroup (c : Char) (acc : List (List Char)) : List (List Char) :=
  if c.isWhitespace then [] :: acc
  else match acc with
    | [] => [[c]]
    | g :: gs => (c :: g) :: gs

/-- Python `str.split()` with no arguments: split on whitespace runs,
dropping empty pieces. -/
def pySplitWs (s : String) : List String :=
  ((s.data.foldr wsGroup []).filter (fun g => g ≠ [])).map String.mk

/-- `get_command` (`command.py:529-556`).  A path without a space is a
plain `command_dict.get`.  Otherwise the source resolves the first
segment, and — before walking the remaining segments — returns that child
unconditionally whenever its own `command_dict` is empty
(`if not cmd or not cmd.command_dict: return cmd`). -/
def getCommand (self : CmdNode) (name : String) : Option CmdNode :=
  if ¬ name.data.contains ' ' then dictGet self.children name
  else
    match pySplitWs name with
    | [] => none
    | n0 :: restNames =>
      match dictGet self.children n0 with
      | none => none
      | some cmd =>
        if cmd.children.isEmpty then some cmd
        else walkPath cmd restNames

/-- State observed by the `add_command` embedding: the parent's
`command_dict` (keys mapped to the subcommand's name, standing for the
node object) and the subcommand's `parent` field. -/
structure AddState where
  dict : List (String × String)
  childParent : Option String
deriving DecidableEq, Repr

/-- Python `dict[k] = v` on a name-keyed dict. -/
def dictSetS (d : List (String × String)) (k v : String) : List (String × String) :=
  if (d.find? (fun kv => kv.1 = k)).isSome then
    d.map (fun kv => if kv.1 = k then (k, v) else kv)
  else d ++ [(k, v)]

/-- The duplicate-command message of `add_command`
(`command.py:503-504/510-511`). -/
def dupMsg (selfName cmdName : String) : String :=
  "Duplicate Command! Multiple commands share the name/alias `" ++ selfName ++ " " ++ cmdName ++ "`"

/-- The alias loop of `add_command` (`command.py:508-513`): `keys` is the
`frozenset(self.command_dict)` snapshot taken before any insertion. -/
def aliasLoop (keys : List String) (selfName cmdName : String) (parent : Option String) :
    List (String × String) → List String → AddState × Option String
  | d, [] => (⟨d, parent⟩, none)
  | d, a :: rest =>
    if a ∈ keys then (⟨d, parent⟩, some (dupMsg selfName cmdName))
    else aliasLoop keys selfName cmdName parent (dictSetS d a cmdName) rest

/-- `add_command` (`command.py:497-513`): sets `cmd.parent = self` first,
snapshots the existing keys, inserts the subcommand under its name, then
under each alias in order; a key collision raises, leaving every earlier
mutation in place.  The returned pair is (final state, raised error). -/
def addCommand (selfName : String) (dict0 : List (String × String))
    (cmdName : String) (aliases : List String) : AddState × Option String :=
  let parent := some selfName
  let keys := dict0.map (fun kv => kv.1)
  if cmdName ∈ keys then (⟨dict0, parent⟩, some (dupMsg selfName cmdName))
  else aliasLoop keys selfName cmdName parent (dictSetS dict0 cmdName cmdName) aliases

/-!  ## `register_converter` (`command.py:801-842`) -/

/-- The per-parameter patch of `register_converter` (`command.py:826-838`).
A parameter whose declared type is exactly `anno_type` gets its converter
list replaced by `[converter]` — the raw class object.  Otherwise the
source unwraps an `Annotated` type (the result is unused, but its
`ValueError` is raised before the `suppress` block), then inside
`suppress(ValueError)` looks up `anno_type` in
`typing.get_args(param.type)` and overwrites that converter slot; a
missing position is the suppressed `ValueError`, while an index beyond
the converter list raises an unsuppressed `IndexError`.
`annoUnwrapCheck` is the `Annotated` unwrap step (`command.py:831-832`),
whose result the source never uses. -/
def annoUnwrapCheck (p : CommandParameter) : Except String PyTy :=
  match p.type with
  | .annotated args => (getFromAnnoType args p.name).map .atom
  | _ => .ok p.type

/-- The per-parameter patch of `register_converter` (`command.py:826-838`);
see `annoUnwrapCheck`. -/
def patchParam (annoType : PyTy) (convName : String) (p : CommandParameter) :
    Except String CommandParameter :=
  if p.type = annoType then
    .ok { p with converters := [.rawClass convName] }
  else
    match annoUnwrapCheck p with
    | .error e => .error e
    | .ok _ =>
      match (getArgsT p.type).findIdx? (fun t => t = annoType) with
      | none => .ok p
      | some i =>
        if i < p.converters.length then
          .ok { p with converters := p.converters.set i (.rawClass convName) }
        else .error "IndexError: list assignment index out of range"

/-- The command branch of the `register_converter` wrapper
(`command.py:817-840`): update the command's `_type_to_converter` dict,
then patch every already-analyzed parameter in place. -/
def registerConverterCmd (annoType : PyTy) (convName : String) (cmd : MolterCmd) :
    Except String MolterCmd :=
  let cmd2 := { cmd with type_to_converter := cmd.type_to_converter.set annoType convName }
  match cmd2.parameters.mapM (patchParam annoType convName) with
  | .error e => .error e
  | .ok ps => .ok { cmd2 with parameters := ps }

/-!  ## Concrete fixtures for the claims -/

/-- Decimal digit run evaluator for `pyIntParse`. -/
def digitsVal : List Char → Nat → Option Nat
  | [], acc => some acc
  | c :: rest, acc =>
    if '0' ≤ c ∧ c ≤ '9' then digitsVal rest (acc * 10 + (c.toNat - 48)) else none

/-- Python `int(token)` on a trimmed token: an optional sign followed by
at least one decimal digit. -/
def pyIntParse (s : String) : Option Int :=
  match s.data with
  | [] => none
  | '-' :: rest => if rest = [] then none else (digitsVal rest 0).map (fun n => -(n : Int))
  | '+' :: rest => if rest = [] then none else (digitsVal rest 0).map (fun n => (n : Int))
  | l => (digitsVal l 0).map (fun n => (n : Int))

/-- Python `int(token)` as a converter: raises `ValueError` on a
non-numeric token. -/
def intFromToken : ConvFun := fun arg =>
  match pyIntParse arg with
  | some n => .ok (.vInt n)
  | none => .error (.otherExc ("invalid literal for int() with base 10: " ++ arg))

/-- A concrete environment: `int` and `str` constructor calls behave as in
Python; every other named callable raises. -/
def envInt : PyEnv where
  convArity := fun _ => 2
  convFn := fun _ _ => .error (.otherExc "not implemented")
  funcFn := fun _ _ => .error (.otherExc "not implemented")
  classCall := fun _ _ => .error (.otherExc "TypeError: Converter() takes no arguments")
  ctorFn := fun tyName arg =>
    if tyName = "int" then intFromToken arg
    else if tyName = "str" then .ok (.vStr arg)
    else .error (.otherExc ("TypeError: " ++ tyName ++ " is not callable"))

/-- Signature of a handler `(word: str)`. -/
def sigOneStr : List SigParam :=
  [⟨"word", none, .atom (.base "str"), .posOrKw⟩]

/-- The analyzed parameters of `sigOneStr`. -/
def paramsOneStr : List CommandParameter :=
  ((getParams envInt [] sigOneStr).toOption).getD []

/-- A registered command `(word: str)` with `ignore_extra` disabled. -/
def cmdOneStrStrict : MolterCmd :=
  { name := "one", parameters := paramsOneStr, ignore_extra := false }

/-- A registered zero-parameter command with `ignore_extra` disabled. -/
def cmdZeroStrict : MolterCmd :=
  { name := "zero", parameters := [], ignore_extra := false }

/-- Signature of a handler `(nums: Greedy[int], word: str)`. -/
def sigGreedy : List SigParam :=
  [⟨"nums", none, .greedy (.atom (.base "int")), .posOrKw⟩,
   ⟨"word", none, .atom (.base "str"), .posOrKw⟩]

/-- The analyzed parameters of `sigGreedy`. -/
def paramsGreedy : List CommandParameter :=
  ((getParams envInt [] sigGreedy).toOption).getD []

/-- A registered command `(nums: Greedy[int], word: str)`. -/
def cmdGreedy : MolterCmd :=
  { name := "grab", parameters := paramsGreedy }

/-- Signature of a handler `(num: int | None)` with no explicit default. -/
def sigIntNone : List SigParam :=
  [⟨"num", none, .union [.base "int", .base "NoneType"], .posOrKw⟩]

/-- An environment whose converter classes declare a 4-parameter
`convert` method. -/
def envFourArity : PyEnv :=
  { envInt with
    convArity := fun _ => 4,
    convFn := fun s arg => .ok (.vStr (s ++ ":" ++ arg)) }

/-- The witness tree for the `get_command` theorems: a root with one
child `a`; `a` has no subcommands of its own. -/
def childA : CmdNode := .mk "a" [] []

/-- Root command whose `command_dict` maps `a` to `childA`. -/
def rootC4 : CmdNode := .mk "root" [] [("a", childA)]

/-- A variant of `childA` that owns a subcommand `c`. -/
def childB : CmdNode := .mk "b" [] [("c", .mk "c" [] [])]

/-- Root command whose `command_dict` maps `b` to `childB`. -/
def rootC4b : CmdNode := .mk "root" [] [("b", childB)]

/-- The greedy-int parameter of `cmdGreedy`, given the (truthy) default
`7`. -/
def pNumsDef : CommandParameter :=
  { paramsGreedy.headD {} with default := some (.vInt 7) }

/-- The converted-value function used by the C6 witness: a numeric token
to its integer value. -/
def intValOf : String → Value := fun g => .vInt ((pyIntParse g).getD 0)

/-- The greedy-int parameter of `cmdGreedy` (no default). -/
def pNums : CommandParameter := paramsGreedy.headD {}

/-- A bare-`int` parameter with its analyzed converter, for the C2
witness. -/
def pBareInt : CommandParameter :=
  { name := "n", type := .atom (.base "int"), converters := [.fn intFromToken] }

/-- `pBareInt` after `register_converter` replaced its converter list
with the raw registered class. -/
def pBareIntPatched : CommandParameter :=
  { pBareInt with converters := [.rawClass "NewConv"] }

/-- A union `int | str` parameter with its two analyzed converter slots,
for the C2 witness. -/
def pUnionIS : CommandParameter :=
  { name := "v", type := .union [.base "int", .base "str"],
    converters := [.fn intFromToken, .fn (fun arg => .ok (.vStr arg))], union := true }

/-!  ## Theorems -/

theorem scanTokensF_tok_cons :
    ∀ (fuel : Nat) (l tok : List Char), tok ∈ scanTokensF fuel l →
      ∃ c cs, tok = c :: cs := by
  intro fuel
  induction fuel with
  | zero => intro l tok h; simp [scanTokensF] at h
  | succ n ih =>
    intro l tok h
    match l with
    | [] => simp [scanTokensF] at h
    | c :: rest =>
      rw [scanTokensF] at h
      split at h
      · exact ih rest tok h
      · split at h
        · split at h
          · rcases List.mem_cons.1 h with h1 | h1
            · exact ⟨_, _, h1⟩
            · exact ih _ tok h1
          · rcases List.mem_cons.1 h with h1 | h1
            · exact ⟨_, _, h1⟩
            · exact ih _ tok h1
        · rcases List.mem_cons.1 h with h1 | h1
          · exact ⟨_, _, h1⟩
          · exact ih _ tok h1

/-- Claim C3 (counterexample): the claimed stripping condition "first
character is an opening quote AND last character is a closing quote" is
not what the code implements.  On the input `"foo` (an unmatched opening
quote) the regex's second branch produces the raw token `"foo`, whose
last character `o` is not a closing quote, yet `_arg_fix` strips both its
first and last characters, tokenizing the input to `fo`. -/
theorem argFix_strips_unmatched_quote :
    scanTokens ("\"foo".data) = [['"', 'f', 'o', 'o']] ∧
    argFix ['"', 'f', 'o', 'o'] = ['f', 'o'] ∧
    tokenize "\"foo" = ["fo"] ∧
    '"' ∈ openQuotes ∧ ¬ ('o' ∈ closeQuotes) :=
  ⟨rfl, rfl, rfl, by decide, by decide⟩

/-- Claim C3 (amended): every token the scanner produces is nonempty, and
its quote delimiters are stripped (first and last character removed)
exactly when the token's FIRST character is an opening quote character —
the last character is not examined.  In particular tokenizing
`foo "bar baz" qux` yields `["foo", "bar baz", "qux"]` with the quotes
stripped and the inner space preserved. -/
theorem tokenize_strip_iff_open_quote :
    (∀ (s : String) (tok : List Char), tok ∈ scanTokens s.data →
      tok ≠ [] ∧
        (argFix tok = (tok.drop 1).dropLast ↔
          ∃ c cs, tok = c :: cs ∧ c ∈ openQuotes)) ∧
    tokenize "foo \"bar baz\" qux" = ["foo", "bar baz", "qux"] := by
  refine ⟨?_, rfl⟩
  intro s tok hmem
  obtain ⟨c, cs, rfl⟩ := scanTokensF_tok_cons _ _ _ hmem
  refine ⟨by simp, ?_⟩
  by_cases hc : c ∈ openQuotes
  · constructor
    · intro _
      exact ⟨c, cs, rfl, hc⟩
    · intro _
      simp [argFix, hc]
  · constructor
    · intro heq
      rw [argFix] at heq
      simp only [hc, if_false] at heq
      have hlen := congrArg List.length heq
      simp at hlen
      omega
    · rintro ⟨c2, cs2, heq, hmem2⟩
      injection heq with h1 h2
      subst h1
      exact absurd hmem2 hc

/-- Claim C3 (witness): the amended tokenizer theorem applied to the
token `bar` of the input `bar`: unquoted, hence unstripped. -/
theorem tokenize_strip_iff_open_quote_witness :
    ['b', 'a', 'r'] ≠ [] ∧
      (argFix ['b', 'a', 'r'] = ((['b', 'a', 'r'].drop 1).dropLast) ↔
        ∃ c cs, ['b', 'a', 'r'] = c :: cs ∧ c ∈ openQuotes) :=
  tokenize_strip_iff_open_quote.1 "bar" ['b', 'a', 'r'] (by decide)

/-- Claim C4 (counterexample): resolving the two-segment path `a b` on a
tree where `a` exists but has no children does not return `none` — the
source returns the child `a` itself (`command.py:547-548`), ignoring the
unresolved remainder of the path. -/
theorem getCommand_returns_childless_child :
    getCommand rootC4 "a b" = some childA ∧ some childA ≠ (none : Option CmdNode) :=
  ⟨rfl, by simp⟩

/-- Claim C4 (amended): a multi-segment path resolves each successive
segment through nested children and yields `none` whenever a segment is
missing — EXCEPT that when the first segment resolves to a child whose
own subcommand table is empty, that child is returned and the remaining
segments are ignored. -/
theorem getCommand_path_resolution :
    (∀ (root : CmdNode) (path n0 : String) (restNames : List String),
      path.data.contains ' ' = true →
      pySplitWs path = n0 :: restNames →
      (dictGet root.children n0 = none → getCommand root path = none) ∧
      (∀ c, dictGet root.children n0 = some c →
        (c.children.isEmpty = true → getCommand root path = some c) ∧
        (c.children.isEmpty = false → getCommand root path = walkPath c restNames))) ∧
    (∀ (c : CmdNode) (n : String) (rest : List String),
      dictGet c.children n = none → walkPath c (n :: rest) = none) := by
  constructor
  · intro root path n0 restNames hsp hsplit
    constructor
    · intro hnone
      rw [getCommand]
      simp only [hsp, hsplit, hnone]
      simp
    · intro c hc
      constructor
      · intro hempty
        rw [getCommand]
        simp only [hsp, hsplit, hc]
        simp [hempty]
      · intro hnonempty
        rw [getCommand]
        simp only [hsp, hsplit, hc]
        simp [hnonempty]
  · intro c n rest hnone
    rw [walkPath, hnone]

/-- Claim C4 (witness): the amended theorem applied to concrete trees:
on `rootC4b` the path `b z` fails at the second segment and yields
`none`, while on `rootC4` the path `a b` hits the childless-child
exception. -/
theorem getCommand_path_resolution_witness :
    getCommand rootC4b "b z" = none ∧ getCommand rootC4 "a b" = some childA := by
  constructor
  · have h := (getCommand_path_resolution.1 rootC4b "b z" "b" ["z"] rfl rfl).2
    have h2 := (h childB rfl).2 rfl
    rw [h2]
    exact getCommand_path_resolution.2 childB "z" [] rfl
  · have h := (getCommand_path_resolution.1 rootC4 "a b" "a" ["b"] rfl rfl).2
    exact (h childA rfl).1 rfl

/-- Claim C5: the arity validation of converter resolution never fires.
`_get_converter_function` builds
`ValueError("... converters must have exactly 2 arguments.")` for a
4-parameter `convert` but lacks the `raise` keyword (`command.py:165`),
so resolution succeeds and hands back the invalid `convert` callable
unchanged; likewise `_get_converter` builds the `ValueError` for a plain
3-parameter function annotation without raising it (`command.py:191`) and
falls through, returning `None` as the resolved converter.  Resolution
therefore never fails on converter arity, contradicting the claimed
configuration error. -/
theorem converter_arity_not_validated :
    getConverter envFourArity (.atom (.convRef "FourParams")) "x" [] =
      .ok (some (getConverterFunction envFourArity "FourParams")) ∧
    getConverterFunction envFourArity "FourParams" = envFourArity.convFn "FourParams" ∧
    getConverter envInt (.atom (.funcRef "threeParams" 3)) "x" [] = .ok none :=
  ⟨rfl, rfl, rfl⟩

theorem list_get_append_mid {α : Type} :
    ∀ (pre : List α) (x : α) (rest : List α) (h : pre.length < (pre ++ x :: rest).length),
      (pre ++ x :: rest).get ⟨pre.length, h⟩ = x := by
  intro pre
  induction pre with
  | nil => intro x rest h; rfl
  | cons a pre ih => intro x rest h; exact ih x rest (by simpa using h)

theorem pyIndex_append_mid (pre : List String) (x : String) (rest : List String) :
    pyIndex (pre ++ x :: rest) (pre.length : Int) = some x := by
  rw [pyIndex]
  have hlen : (pre ++ x :: rest).length = pre.length + rest.length + 1 := by
    simp
    omega
  have hb : ¬ ((pre.length : Int) < 0) := by omega
  simp only [hb, if_false]
  rw [dif_pos (by omega)]
  have : ((pre.length : Int)).toNat = pre.length := by omega
  simp only [this]
  rw [list_get_append_mid]

/-- Claim C8: on a non-empty token sequence an `ArgsIterator` at index 0
accepts `back()` (driving the index to `-1`), after which `__next__`
checks only the upper bound and indexes the underlying tuple at `-1`,
wrapping to the LAST token; similarly `consume_rest()` at index 0 slices
`args[-1:]` and yields only the last token rather than the whole
sequence. -/
theorem argsIterator_negative_index_wraps :
    ∀ (args : List String) (h : args ≠ []),
      ((ArgsIterator.iterInit { args := args }).back 1).index = -1 ∧
      ((ArgsIterator.iterInit { args := args }).back 1).next =
        .item (args.getLast h) { args := args, index := 0, length := args.length } ∧
      ((ArgsIterator.iterInit { args := args }).consumeRest).1 = [args.getLast h] := by
  intro args h
  have hpos : 0 < args.length := List.length_pos.2 h
  refine ⟨rfl, ?_, ?_⟩
  · rw [ArgsIterator.next]
    have hiter : (ArgsIterator.iterInit { args := args }).back 1 =
        { args := args, index := -1, length := args.length } := rfl
    rw [hiter]
    rw [if_neg (by simp; omega)]
    have hpy : pyIndex args (-1) = some (args.getLast h) := by
      rw [pyIndex]
      simp only [show ((-1 : Int) < 0) = True by simp, if_true]
      rw [dif_pos (by constructor <;> omega)]
      have hnat : ((args.length : Int) + (-1)).toNat = args.length - 1 := by omega
      simp only [hnat]
      rw [List.getLast_eq_get]
    rw [hpy]
    simp
  · have hiter : (ArgsIterator.iterInit { args := args }).consumeRest =
        (pySliceFrom args (0 - 1), { args := args, index := (args.length : Int), length := args.length }) := rfl
    rw [hiter]
    simp only []
    rw [pySliceFrom]
    rw [if_pos (by omega)]
    have hnat : ((args.length : Int) + (0 - 1)).toNat = args.length - 1 := by omega
    rw [hnat]
    rw [List.drop_eq_get_cons (by omega)]
    rw [List.getLast_eq_get]
    have : args.drop (args.length - 1 + 1) = [] := by
      apply List.drop_eq_nil_of_le
      omega
    rw [this]

/-- Claim C8 (witness): the iterator theorem at `["a", "b", "c"]`:
`back()` then `next()` yields `"c"`, and `consume_rest()` at index 0
yields `["c"]`. -/
theorem argsIterator_negative_index_wraps_witness :
    ((ArgsIterator.iterInit { args := ["a", "b", "c"] }).back 1).next =
      .item "c" { args := ["a", "b", "c"], index := 0, length := 3 } ∧
    ((ArgsIterator.iterInit { args := ["a", "b", "c"] }).consumeRest).1 = ["c"] :=
  ⟨(argsIterator_negative_index_wraps ["a", "b", "c"] (by simp)).2.1,
   (argsIterator_negative_index_wraps ["a", "b", "c"] (by simp)).2.2⟩

theorem aliasLoop_run (keys : List String) (selfName cmdName : String)
    (parent : Option String) :
    ∀ (pre : List String) (bad : String) (post : List String)
      (d : List (String × String)),
      (∀ a ∈ pre, a ∉ keys) → bad ∈ keys →
      aliasLoop keys selfName cmdName parent d (pre ++ bad :: post) =
        (⟨pre.foldl (fun d2 a => dictSetS d2 a cmdName) d, parent⟩,
         some (dupMsg selfName cmdName)) := by
  intro pre
  induction pre with
  | nil =>
    intro bad post d _ hbad
    rw [List.nil_append, aliasLoop, if_pos hbad]
    rfl
  | cons a pre ih =>
    intro bad post d hpre hbad
    rw [List.cons_append, aliasLoop, if_neg (hpre a (by simp))]
    rw [ih bad post _ (fun x hx => hpre x (by simp [hx])) hbad]
    rfl

/-- Claim C9: `add_command` is not atomic on failure.  When one of the new
subcommand's aliases collides with an existing child key, the raised
duplicate error leaves the parent's `command_dict` already holding the new
node under its primary name and under every alias processed before the
colliding one, and the node's `parent` back-reference already set
(`command.py:499` runs first). -/
theorem addCommand_partial_mutation_on_duplicate :
    ∀ (selfName : String) (dict0 : List (String × String)) (cmdName : String)
      (pre : List String) (bad : String) (post : List String),
      cmdName ∉ dict0.map (fun kv => kv.1) →
      (∀ a ∈ pre, a ∉ dict0.map (fun kv => kv.1)) →
      bad ∈ dict0.map (fun kv => kv.1) →
      addCommand selfName dict0 cmdName (pre ++ bad :: post) =
        (⟨pre.foldl (fun d a => dictSetS d a cmdName) (dictSetS dict0 cmdName cmdName),
          some selfName⟩,
         some (dupMsg selfName cmdName)) := by
  intro selfName dict0 cmdName pre bad post hcmd hpre hbad
  rw [addCommand]
  rw [if_neg hcmd]
  exact aliasLoop_run _ _ _ _ pre bad post _ hpre hbad

/-- Claim C9 (witness): adding subcommand `c` with aliases
`["p", "x", "q"]` to a parent already owning key `x`: the error is
raised, yet `c` and the earlier alias `p` are in the dict and the parent
reference is set. -/
theorem addCommand_partial_mutation_on_duplicate_witness :
    addCommand "root" [("x", "x")] "c" (["p"] ++ "x" :: ["q"]) =
      (⟨["p"].foldl (fun d a => dictSetS d a "c") (dictSetS [("x", "x")] "c" "c"),
        some "root"⟩,
       some (dupMsg "root" "c")) :=
  addCommand_partial_mutation_on_duplicate "root" [("x", "x")] "c" ["p"] "x" ["q"]
    (by decide) (by decide) (by decide)

/-- Claim C10: when the greedy loop accumulates zero tokens and the
descriptor has a truthy default, `_greedy_convert` binds the default value
itself (`greedy_args = param.default`, `command.py:331`), not wrapped in a
list; when it accumulates tokens the bound argument is the list of
converted values — so the handler receives a different shape in the
fallback case (`vInt 7` versus `vList [vInt 7]`). -/
theorem greedy_default_bound_unwrapped :
    (∀ (env : PyEnv) (p : CommandParameter) (d : Value) (c : ConvSlot)
       (pre : List String) (bad : String) (rest : List String) (e : PyErr),
      p.default = some d → d.truthy = true → p.converters = [c] →
      callSlot env c bad = .error e →
      greedyConvert env p
          ⟨pre ++ bad :: rest, (pre.length : Int) + 1, (pre ++ bad :: rest).length⟩ =
        .ok (d, true,
          ⟨pre ++ bad :: rest, (pre.length : Int) + 1, (pre ++ bad :: rest).length⟩)) ∧
    (∃ g, greedyConvert envInt pNumsDef { args := ["5", "6"], index := 1, length := 2 } =
      .ok (.vList [.vInt 5, .vInt 6], false, g)) ∧
    Value.vInt 7 ≠ Value.vList [Value.vInt 7] := by
  refine ⟨?_, ⟨_, rfl⟩, fun h => Value.noConfusion h⟩
  intro env p d c pre bad rest e hdef htruthy hconv hcall
  have hlen : (pre ++ bad :: rest).length = pre.length + rest.length + 1 := by
    simp
    omega
  have hopt : p.optional = true := by
    rw [CommandParameter.optional, hdef]
    rfl
  have hnext : ArgsIterator.next
      ⟨pre ++ bad :: rest, (pre.length : Int), (pre ++ bad :: rest).length⟩ =
      .item bad ⟨pre ++ bad :: rest, (pre.length : Int) + 1, (pre ++ bad :: rest).length⟩ := by
    rw [ArgsIterator.next]
    rw [if_neg (by rw [hlen]; push_cast; omega)]
    rw [pyIndex_append_mid]
  have hpc : pyConvert env p bad = .ok (d, true) := by
    rw [pyConvert, hconv]
    rw [tryConvSlots, hcall]
    simp only [hopt]
    simp [tryConvSlots, hdef]
  have hloop : greedyLoopF env p (rest.length + 1)
      ⟨pre ++ bad :: rest, (pre.length : Int), (pre ++ bad :: rest).length⟩ [] =
      .ok ([], true,
        ⟨pre ++ bad :: rest, (pre.length : Int) + 1, (pre ++ bad :: rest).length⟩) := by
    rw [greedyLoopF, hnext]
    simp only [hpc]
    simp
  rw [greedyConvert]
  have hback : ArgsIterator.back
      ⟨pre ++ bad :: rest, (pre.length : Int) + 1, (pre ++ bad :: rest).length⟩ 1 =
      ⟨pre ++ bad :: rest, (pre.length : Int), (pre ++ bad :: rest).length⟩ := by
    rw [ArgsIterator.back]
    simp
  rw [hback, greedyLoop]
  have hfuel : (((pre ++ bad :: rest).length : Int) - (pre.length : Int)).toNat =
      rest.length + 1 := by
    rw [hlen]
    omega
  simp only []
  rw [hfuel, hloop]
  simp [hdef, htruthy]

/-- Claim C10 (witness): the general fallback statement at the greedy-int
parameter with default `7` and the single non-numeric token `x`: the
bound value is `vInt 7` itself. -/
theorem greedy_default_bound_unwrapped_witness :
    greedyConvert envInt pNumsDef
        ⟨[] ++ "x" :: [], ((List.length ([] : List String)) : Int) + 1, ([] ++ "x" :: []).length⟩ =
      .ok (.vInt 7, true,
        ⟨[] ++ "x" :: [], ((List.length ([] : List String)) : Int) + 1, ([] ++ "x" :: []).length⟩) :=
  greedy_default_bound_unwrapped.1 envInt pNumsDef (.vInt 7) _ [] "x" []
    (.otherExc "invalid literal for int() with base 10: x") rfl rfl rfl rfl

theorem unionLoop_default_preserved (env : PyEnv) (tm : TypeMap) (name : String) :
    ∀ (args : List PyAtom) (cp cp' : CommandParameter) (d : Value),
      cp.default = some d → unionLoop env tm name args cp = .ok cp' →
      cp'.default = some d := by
  intro args
  induction args with
  | nil =>
    intro cp cp' d hd h
    rw [unionLoop] at h
    injection h with h
    rw [← h]
    exact hd
  | cons a rest ih =>
    intro cp cp' d hd h
    rw [unionLoop] at h
    split at h
    · split at h
      · exact absurd h (by simp)
      · refine ih _ cp' d ?_ h
        exact hd
    · have hopt : cp.optional = true := by
        rw [CommandParameter.optional, hd]
        rfl
      rw [hopt] at h
      simp at h
      exact ih _ _ _ hd h

/-- Claim C7: a union containing a null member and no explicit default is
made optional by analysis with default `None` (`command.py:247-248`), an
explicit default is never overwritten, and binding the analyzed
`int | None` parameter against a non-numeric token yields the `None`
default with `used_default` set, without raising. -/
theorem union_none_member_defaults_to_none :
    (∀ (env : PyEnv) (tm : TypeMap) (name : String) (args : List PyAtom)
       (cp cp' : CommandParameter),
      cp.default = none → (PyAtom.base "NoneType") ∈ args →
      unionLoop env tm name args cp = .ok cp' → cp'.default = some .vNone) ∧
    (∀ (env : PyEnv) (tm : TypeMap) (name : String) (args : List PyAtom)
       (cp cp' : CommandParameter) (d : Value),
      cp.default = some d → unionLoop env tm name args cp = .ok cp' →
      cp'.default = some d) ∧
    (∃ p, getParams envInt [] sigIntNone = .ok [p] ∧ p.default = some .vNone ∧
      p.union = true ∧ pyConvert envInt p "x" = .ok (.vNone, true)) := by
  refine ⟨?_, fun env tm name args cp cp' d => unionLoop_default_preserved env tm name args cp cp' d,
    ⟨_, rfl, rfl, rfl, rfl⟩⟩
  intro env tm name args
  induction args with
  | nil =>
    intro cp cp' _ hmem
    exact absurd hmem (by simp)
  | cons a rest ih =>
    intro cp cp' hd hmem h
    rw [unionLoop] at h
    split at h
    · rename_i hne
      split at h
      · exact absurd h (by simp)
      · have hmem2 : (PyAtom.base "NoneType") ∈ rest := by
          rcases List.mem_cons.1 hmem with h1 | h1
          · exact absurd h1 hne
          · exact h1
        refine ih _ cp' ?_ hmem2 h
        exact hd
    · have hopt : cp.optional = false := by
        rw [CommandParameter.optional, hd]
        rfl
      rw [hopt] at h
      simp at h
      exact unionLoop_default_preserved env tm name rest _ _ _ rfl h

/-- Claim C7 (witness): the union-default statement at the concrete
member list `[int, NoneType]` and a default-free descriptor. -/
theorem union_none_member_defaults_to_none_witness :
    ∃ cp', unionLoop envInt [] "num" [.base "int", .base "NoneType"]
        { name := "num" } = .ok cp' ∧ cp'.default = some .vNone :=
  ⟨_, rfl, union_none_member_defaults_to_none.1 envInt [] "num"
    [.base "int", .base "NoneType"] { name := "num" } _ rfl (by decide) rfl⟩

theorem pyConvert_wrapped_error (env : PyEnv) (p : CommandParameter) (c : ConvSlot)
    (bad : String) (e : PyErr) (hconv : p.converters = [c])
    (hunion : p.union = false) (hdef : p.default = none)
    (hcall : callSlot env c bad = .error e) :
    ∃ m, pyConvert env p bad = .error (.badArgument m) := by
  have hopt : p.optional = false := by
    rw [CommandParameter.optional, hdef]
    rfl
  rw [pyConvert, hconv, tryConvSlots, hcall]
  rw [hunion, hopt]
  cases e with
  | badArgument m => exact ⟨m, by simp⟩
  | otherExc m => exact ⟨m, by simp⟩

theorem greedyLoopF_run (env : PyEnv) (p : CommandParameter) (c : ConvSlot)
    (f : String → Value) (bad : String) (rest : List String) (e : PyErr)
    (hconv : p.converters = [c]) (hunion : p.union = false) (hdef : p.default = none)
    (hcall : callSlot env c bad = .error e) :
    ∀ (good : List String) (pre : List String) (acc : List Value),
      (∀ g ∈ good, callSlot env c g = .ok (f g)) →
      greedyLoopF env p (good.length + rest.length + 1)
          ⟨pre ++ good ++ bad :: rest, (pre.length : Int),
            (pre ++ good ++ bad :: rest).length⟩ acc =
        .ok (acc.reverse ++ good.map f, true,
          ⟨pre ++ good ++ bad :: rest, (pre.length : Int) + (good.length : Int) + 1,
            (pre ++ good ++ bad :: rest).length⟩) := by
  intro good
  induction good with
  | nil =>
    intro pre acc _
    obtain ⟨m, hpc⟩ := pyConvert_wrapped_error env p c bad e hconv hunion hdef hcall
    have hlen : (pre ++ [] ++ bad :: rest).length = pre.length + rest.length + 1 := by
      simp
      omega
    have hnext : ArgsIterator.next
        ⟨pre ++ [] ++ bad :: rest, (pre.length : Int), (pre ++ [] ++ bad :: rest).length⟩ =
        .item bad ⟨pre ++ [] ++ bad :: rest, (pre.length : Int) + 1,
          (pre ++ [] ++ bad :: rest).length⟩ := by
      rw [ArgsIterator.next]
      rw [if_neg (by rw [hlen]; push_cast; omega)]
      have : pre ++ [] ++ bad :: rest = pre ++ bad :: rest := by simp
      rw [this, pyIndex_append_mid]
    rw [greedyLoopF, hnext]
    simp only [hpc]
    simp
  | cons g good ih =>
    intro pre acc hgood
    have hg : callSlot env c g = .ok (f g) := hgood g (by simp)
    have hpcg : pyConvert env p g = .ok (f g, false) := by
      rw [pyConvert, hconv, tryConvSlots, hg]
    have hassoc : pre ++ (g :: good) ++ bad :: rest = pre ++ g :: (good ++ bad :: rest) := by
      simp
    have hlen : (pre ++ (g :: good) ++ bad :: rest).length =
        pre.length + good.length + rest.length + 2 := by
      simp
      omega
    have hnext : ArgsIterator.next
        ⟨pre ++ (g :: good) ++ bad :: rest, (pre.length : Int),
          (pre ++ (g :: good) ++ bad :: rest).length⟩ =
        .item g ⟨pre ++ (g :: good) ++ bad :: rest, (pre.length : Int) + 1,
          (pre ++ (g :: good) ++ bad :: rest).length⟩ := by
      rw [ArgsIterator.next]
      rw [if_neg (by rw [hlen]; push_cast; omega)]
      rw [show pre ++ (g :: good) ++ bad :: rest = pre ++ g :: (good ++ bad :: rest) by simp]
      rw [pyIndex_append_mid]
    have hfuel : (g :: good).length + rest.length + 1 = (good.length + rest.length + 1) + 1 := by
      simp
      omega
    rw [hfuel, greedyLoopF, hnext]
    simp only [hpcg]
    have hih := ih (pre ++ [g]) (f g :: acc) (fun x hx => hgood x (by simp [hx]))
    have heq1 : (pre ++ [g]) ++ good ++ bad :: rest = pre ++ (g :: good) ++ bad :: rest := by
      simp
    have heq2 : ((pre ++ [g]).length : Int) = (pre.length : Int) + 1 := by
      simp
    rw [heq1, heq2] at hih
    simp only [if_neg (by simp : ¬ (false = true))]
    rw [hih]
    have : ((f g :: acc).reverse : List Value) = acc.reverse ++ [f g] := by simp
    rw [this]
    have hlist : (acc.reverse ++ [f g]) ++ good.map f = acc.reverse ++ (g :: good).map f := by
      simp
    rw [hlist]
    have hidx : (pre.length : Int) + 1 + (good.length : Int) + 1 =
        (pre.length : Int) + ((g :: good).length : Int) + 1 := by
      simp
      omega
    rw [hidx]

/-- Claim C6: the greedy procedure accumulates the run of consecutively
convertible tokens; when the run breaks off because a trailing token did
not convert, `_greedy_convert` reports `broke_off` and `call_callback`
steps the cursor back one, so `__next__` hands exactly that token to the
next descriptor.  In particular a greedy-int parameter followed by a str
parameter binds `[5, 6]` and then `"x"` on the message `5 6 x`. -/
theorem greedy_run_and_stepback :
    (∀ (env : PyEnv) (p : CommandParameter) (c : ConvSlot) (f : String → Value)
       (pre good : List String) (bad : String) (rest : List String) (e : PyErr),
      p.converters = [c] → p.union = false → p.default = none →
      (∀ g ∈ good, callSlot env c g = .ok (f g)) →
      callSlot env c bad = .error e → good ≠ [] →
      greedyConvert env p
          ⟨pre ++ good ++ bad :: rest, (pre.length : Int) + 1,
            (pre ++ good ++ bad :: rest).length⟩ =
        .ok (.vList (good.map f), true,
          ⟨pre ++ good ++ bad :: rest, (pre.length : Int) + (good.length : Int) + 1,
            (pre ++ good ++ bad :: rest).length⟩) ∧
      pyIndex (pre ++ good ++ bad :: rest)
          ((pre.length : Int) + (good.length : Int) + 1 - 1) = some bad) ∧
    callCallback envInt cmdGreedy "5 6 x" 10 =
      some (.ok ([.vList [.vInt 5, .vInt 6], .vStr "x"], [])) := by
  refine ⟨?_, rfl⟩
  intro env p c f pre good bad rest e hconv hunion hdef hgood hcall hne
  constructor
  · rw [greedyConvert]
    have hback : ArgsIterator.back
        ⟨pre ++ good ++ bad :: rest, (pre.length : Int) + 1,
          (pre ++ good ++ bad :: rest).length⟩ 1 =
        ⟨pre ++ good ++ bad :: rest, (pre.length : Int),
          (pre ++ good ++ bad :: rest).length⟩ := by
      rw [ArgsIterator.back]
      simp
    rw [hback, greedyLoop]
    have hlen : (pre ++ good ++ bad :: rest).length =
        pre.length + good.length + rest.length + 1 := by
      simp
      omega
    have hfuel : (((pre ++ good ++ bad :: rest).length : Int) - (pre.length : Int)).toNat =
        good.length + rest.length + 1 := by
      rw [hlen]
      omega
    simp only []
    rw [hfuel]
    rw [greedyLoopF_run env p c f bad rest e hconv hunion hdef hcall good pre [] hgood]
    have hval : ([].reverse ++ good.map f : List Value) = good.map f := by simp
    rw [hval]
    have hvne : (good.map f).isEmpty = false := by
      cases good with
      | nil => exact absurd rfl hne
      | cons a l => rfl
    simp [hvne]
  · have : (pre.length : Int) + (good.length : Int) + 1 - 1 =
        (((pre ++ good).length : Int)) := by
      simp
    rw [this]
    rw [show pre ++ good ++ bad :: rest = (pre ++ good) ++ bad :: rest by simp]
    exact pyIndex_append_mid (pre ++ good) bad rest

/-- Claim C6 (witness): the greedy-run statement at the concrete tokens
`["5", "6", "x"]`: the run binds `[vInt 5, vInt 6]`, breaks off, and after
the step-back the cursor's next token is `"x"`. -/
theorem greedy_run_and_stepback_witness :
    greedyConvert envInt pNums
        ⟨[] ++ ["5", "6"] ++ "x" :: [], ((List.length ([] : List String)) : Int) + 1,
          ([] ++ ["5", "6"] ++ "x" :: []).length⟩ =
      .ok (.vList (["5", "6"].map intValOf), true,
        ⟨[] ++ ["5", "6"] ++ "x" :: [],
          ((List.length ([] : List String)) : Int) + ((List.length ["5", "6"]) : Int) + 1,
          ([] ++ ["5", "6"] ++ "x" :: []).length⟩) ∧
    pyIndex ([] ++ ["5", "6"] ++ "x" :: [])
        (((List.length ([] : List String)) : Int) + ((List.length ["5", "6"]) : Int) + 1 - 1) =
      some "x" :=
  greedy_run_and_stepback.1 envInt pNums _ intValOf [] ["5", "6"] "x" []
    (.otherExc "invalid literal for int() with base 10: x") rfl rfl rfl
    (by intro g hg
        simp at hg
        rcases hg with rfl | rfl
        · rfl
        · rfl)
    rfl (by simp)

/-- Claim C2: `register_converter` patches an already-analyzed command in
place, without re-running analysis: a descriptor whose declared type is
exactly the registered type has its converter list replaced by the
registered converter; a union/annotated descriptor is patched
index-for-index against the declared `typing.get_args` positions; every
other descriptor field is untouched (the conclusions are record updates
of the old descriptor); `_convert` on a patched descriptor then invokes
the registered converter object; and patching one command in a collection
leaves every other command unchanged. -/
theorem register_converter_patches_in_place :
    (∀ (annoType : PyTy) (convName : String) (p : CommandParameter),
      p.type = annoType →
      patchParam annoType convName p = .ok { p with converters := [.rawClass convName] }) ∧
    (∀ (annoType : PyTy) (convName : String) (p : CommandParameter) (i : Nat),
      p.type ≠ annoType →
      (∀ args, p.type = PyTy.annotated args → ∃ x, args.drop 1 = [x]) →
      (getArgsT p.type).findIdx? (fun t => t = annoType) = some i →
      i < p.converters.length →
      patchParam annoType convName p =
        .ok { p with converters := p.converters.set i (.rawClass convName) }) ∧
    (∀ (annoType : PyTy) (convName : String) (cmd : MolterCmd) (ps : List CommandParameter),
      cmd.parameters.mapM (patchParam annoType convName) = .ok ps →
      registerConverterCmd annoType convName cmd =
        .ok (MolterCmd.mk cmd.name ps cmd.ignore_extra
          (cmd.type_to_converter.set annoType convName))) ∧
    (∀ (env : PyEnv) (convName arg : String) (v : Value) (p2 : CommandParameter),
      env.classCall convName arg = .ok v →
      p2.converters = [.rawClass convName] →
      pyConvert env p2 arg = .ok (v, false)) ∧
    (∀ (cmds : List MolterCmd) (k j : Nat) (cmd2 : MolterCmd), j ≠ k →
      (cmds.set k cmd2).get? j = cmds.get? j) := by
  refine ⟨?_, ?_, ?_, ?_, ?_⟩
  · intro annoType convName p h
    rw [patchParam, if_pos h]
  · intro annoType convName p i hne hA hidx hlt
    rw [patchParam, if_neg hne]
    have hok : ∃ t, annoUnwrapCheck p = .ok t := by
      cases hty : p.type with
      | annotated args =>
        obtain ⟨x, hx⟩ := hA args hty
        refine ⟨.atom x, ?_⟩
        rw [annoUnwrapCheck, hty]
        simp [getFromAnnoType, hx, Except.map]
      | atom a => exact ⟨p.type, by rw [annoUnwrapCheck, hty]⟩
      | union args => exact ⟨p.type, by rw [annoUnwrapCheck, hty]⟩
      | greedy t => exact ⟨p.type, by rw [annoUnwrapCheck, hty]⟩
    obtain ⟨t, ht⟩ := hok
    rw [ht, hidx]
    exact if_pos hlt
  · intro annoType convName cmd ps hm
    rw [registerConverterCmd]
    have hpar : ({ cmd with
        type_to_converter := cmd.type_to_converter.set annoType convName } : MolterCmd).parameters =
        cmd.parameters := rfl
    rw [hpar, hm]
  · intro env convName arg v p2 hclass hp2
    rw [pyConvert, hp2, tryConvSlots]
    rw [show callSlot env (.rawClass convName) arg = env.classCall convName arg from rfl]
    rw [hclass]
  · intro cmds k j cmd2 hjk
    exact List.get?_set_ne _ _ (fun h => hjk h.symm)

/-- Claim C2 (witness): the patch statements at a bare-`int` descriptor
and at a union `int | str` descriptor (patching `str` at declared
position 1), plus `_convert` invoking the freshly registered class. -/
theorem register_converter_patches_in_place_witness :
    patchParam (.atom (.base "int")) "NewConv" pBareInt =
      .ok { pBareInt with converters := [.rawClass "NewConv"] } ∧
    patchParam (.atom (.base "str")) "NewConv" pUnionIS =
      .ok { pUnionIS with converters := pUnionIS.converters.set 1 (.rawClass "NewConv") } ∧
    pyConvert { envInt with classCall := fun _ arg => .ok (.vStr arg) } pBareIntPatched "q" =
      .ok (.vStr "q", false) :=
  ⟨register_converter_patches_in_place.1 _ "NewConv" pBareInt rfl,
   register_converter_patches_in_place.2.1 _ "NewConv" pUnionIS 1 (by decide)
     (fun args h => by exact absurd h (by simp [pUnionIS]))
     rfl (by decide),
   register_converter_patches_in_place.2.2.2.1 _ "NewConv" "q" (.vStr "q") pBareIntPatched
     rfl rfl⟩

theorem next_stop_finished (it : ArgsIterator) : it.next = .stop → it.finished = true := by
  intro h
  rw [ArgsIterator.next] at h
  rw [ArgsIterator.finished]
  split at h
  · rename_i hc
    exact decide_eq_true hc
  · split at h <;> exact absurd h (by simp)

theorem outerLoop_ok_finished (env : PyEnv) (params : List CommandParameter) :
    ∀ (fuel : Nat) (st st' : BindState),
      outerLoop env params fuel st = some (.ok st') → st'.it.finished = true := by
  intro fuel
  induction fuel with
  | zero =>
    intro st st' h
    exact absurd h (by rw [outerLoop]; simp)
  | succ n ih =>
    intro st st' h
    rw [outerLoop] at h
    cases hnext : st.it.next with
    | stop =>
      rw [hnext] at h
      have hst : st = st' := by
        injection h with h2
        injection h2
      rw [← hst]
      exact next_stop_finished st.it hnext
    | ixErr =>
      rw [hnext] at h
      exact absurd h (by simp)
    | item arg it1 =>
      rw [hnext] at h
      dsimp only at h
      cases hin : innerWhile env params arg params.length { st with it := it1 } with
      | error e =>
        rw [hin] at h
        exact absurd h (by simp)
      | ok st2 =>
        rw [hin] at h
        exact ih st2 st' h

theorem afterLoop_ignore_extra_eq (name : String) (params : List CommandParameter)
    (tm tm2 : TypeMap) (b1 b2 : Bool) (st : BindState) (hfin : st.it.finished = true) :
    afterLoop ⟨name, params, b1, tm⟩ st = afterLoop ⟨name, params, b2, tm2⟩ st := by
  by_cases hlt : st.paramIndex < params.length
  · simp [afterLoop, hlt]
  · simp [afterLoop, hlt, hfin]

/-- Claim C1: the `ignore_extra` flag never affects dispatch, and the
"too many arguments" rejection is unreachable.  The outer `for arg in
args` loop of `call_callback` only terminates by `StopIteration`, i.e.
with the cursor exhausted, so the `not args.finished` conjunct of
`command.py:708` is always false; surplus tokens are silently drained by
the outer loop once `param_index` has passed the last descriptor, and
zero-parameter commands return before any check.  Concretely, a one-
required-str-parameter command and a zero-parameter command, both with
`ignore_extra=False`, accept the two-token message `a b` and invoke the
handler, instead of raising. -/
theorem callCallback_ignore_extra_irrelevant :
    (∀ (env : PyEnv) (name : String) (params : List CommandParameter) (tm : TypeMap)
       (content : String) (fuel : Nat),
      callCallback env ⟨name, params, false, tm⟩ content fuel =
        callCallback env ⟨name, params, true, tm⟩ content fuel) ∧
    callCallback envInt cmdOneStrStrict "a b" 10 = some (.ok ([.vStr "a"], [])) ∧
    callCallback envInt cmdZeroStrict "a b" 10 = some (.ok ([], [])) := by
  refine ⟨?_, rfl, rfl⟩
  intro env name params tm content fuel
  rw [callCallback, callCallback]
  dsimp only
  by_cases hz : params.length = 0
  · rw [if_pos hz, if_pos hz]
  · rw [if_neg hz, if_neg hz]
    cases houter : outerLoop env params fuel
        ⟨ArgsIterator.iterInit { args := tokenize content }, 0, [], []⟩ with
    | none => rfl
    | some r =>
      cases r with
      | error e => rfl
      | ok st =>
        have hfin := outerLoop_ok_finished env params fuel _ st houter
        exact congrArg some (afterLoop_ignore_extra_eq name params tm tm false true st hfin)

end Molter
